import Mathlib

set_option maxRecDepth 100000

/-!
Verification of the TTL/LRU cache and session store of `src/cache_manager.py`.

The Python code is shallowly embedded:
* instants (`time.time()`, `datetime.now()`) are modelled as natural numbers
  counting seconds, and every operation that reads the clock takes the current
  instant `now` as an explicit argument;
* `collections.OrderedDict` is modelled as an association list
  `List (String × CacheEntry α)` whose order is the recency order of the
  dictionary (head = least recently used, last = most recently used);
* the Python `dict` of sessions is modelled as `List (String × Session)`;
* `async`/lock wrappers are dropped: each operation is a pure state
  transformer, matching the code in which every public method holds the
  store's lock for its whole body.

The cache methods of `CacheManager` first normalise the locator with the
deterministic, pure `_generate_key`; the store operations below act on the
already-normalised key, which is how all the cache-level properties are
phrased.  The session-id digest `_get_session_id` (MD5 of
`f"{ip}_{user_agent}"`) is embedded in full, including MD5 itself, because
the collision claim depends on it.
-/

namespace FetchVid

/-- One cache entry, mirroring the dict literal built in `CacheManager.set`:
`{'data': data, 'expires_at': time.time() + ttl, 'created_at': time.time(),
'url': url}`. -/
structure CacheEntry (α : Type) where
  data : α
  expires_at : Nat
  created_at : Nat
  url : String
deriving DecidableEq

/-- The state of a `CacheManager` instance: the ordered dictionary plus the
configuration and counters set up in `CacheManager.__init__`. -/
structure CacheState (α : Type) where
  cache : List (String × CacheEntry α)
  max_size : Nat
  default_ttl : Nat
  hit_count : Nat
  miss_count : Nat
deriving DecidableEq

/-- `CacheManager.__init__(max_size, default_ttl)`: empty ordered dict and
zeroed hit/miss counters. -/
def initCache (α : Type) (max_size default_ttl : Nat) : CacheState α :=
  ⟨[], max_size, default_ttl, 0, 0⟩

/-- Deletion of a key from the ordered dictionary (`del self.cache[key]`).
Keys of a Python dict are unique, so filtering out every binding of `k`
removes exactly the one binding when the list has no duplicate keys. -/
def eraseKey (k : String) (l : List (String × CacheEntry α)) :
    List (String × CacheEntry α) :=
  l.filter (fun p => p.1 != k)

/-- The eviction loop of `CacheManager.set`:
`while len(self.cache) > self.max_size: del self.cache[next(iter(self.cache))]`
— repeatedly drop the least-recently-used (first) binding while the size
exceeds the bound. -/
def enforceMaxSize (m : Nat) : List (String × CacheEntry α) →
    List (String × CacheEntry α)
  | [] => []
  | x :: xs => if xs.length + 1 > m then enforceMaxSize m xs else x :: xs

namespace CacheManager

/-- `CacheManager.get` (body under the lock), acting on the normalised key.
Returns the Python return value (`entry['data']` or `None`) together with the
updated state.  A fresh hit is moved to the most-recently-used end
(`move_to_end`); a present-but-expired entry is deleted and counted as a
miss; an absent key is a miss. -/
def get (now : Nat) (key : String) (st : CacheState α) :
    Option α × CacheState α :=
  match st.cache.lookup key with
  | some entry =>
    if now < entry.expires_at then
      (some entry.data,
        { st with
          cache := eraseKey key st.cache ++ [(key, entry)]
          hit_count := st.hit_count + 1 })
    else
      (none,
        { st with
          cache := eraseKey key st.cache
          miss_count := st.miss_count + 1 })
  | none => (none, { st with miss_count := st.miss_count + 1 })

/-- The `ttl = ttl or self.default_ttl` line of `CacheManager.set`: Python's
`or` falls back to the default not only when `ttl` is `None` but also when it
is the falsy integer `0`. -/
def effectiveTtl (st : CacheState α) (ttl : Option Nat) : Nat :=
  match ttl with
  | none => st.default_ttl
  | some t => if t = 0 then st.default_ttl else t

/-- `CacheManager.set` (body under the lock), acting on the normalised key.
Dictionary assignment followed by `move_to_end` places the new binding at the
most-recently-used end (and removes any old binding of the key), after which
the eviction loop restores the size bound. -/
def set (now : Nat) (key : String) (data : α) (ttl : Option Nat)
    (st : CacheState α) : CacheState α :=
  let entry : CacheEntry α :=
    ⟨data, now + effectiveTtl st ttl, now, key⟩
  { st with
    cache := enforceMaxSize st.max_size (eraseKey key st.cache ++ [(key, entry)]) }

/-- `CacheManager.invalidate`: remove the binding if present, report whether
it was present. -/
def invalidate (key : String) (st : CacheState α) : Bool × CacheState α :=
  match st.cache.lookup key with
  | some _ => (true, { st with cache := eraseKey key st.cache })
  | none => (false, st)

/-- `CacheManager.clear`: empty the dictionary and reset both counters. -/
def clear (st : CacheState α) : CacheState α :=
  { st with cache := [], hit_count := 0, miss_count := 0 }

/-- `CacheManager.cleanup_expired`: collect the keys of the entries with
`current_time >= expires_at`, delete each collected key, and return how many
keys were collected. -/
def cleanup_expired (now : Nat) (st : CacheState α) : Nat × CacheState α :=
  let expired_keys :=
    (st.cache.filter (fun p => decide (now ≥ p.2.expires_at))).map Prod.fst
  (expired_keys.length,
    { st with cache := expired_keys.foldl (fun c k => eraseKey k c) st.cache })

end CacheManager

/-!
### MD5

`SessionManager._get_session_id` returns
`hashlib.md5(f"{ip}_{user_agent}".encode()).hexdigest()`.  The digest is
embedded in full (RFC 1321), with 32-bit machine words modelled as natural
numbers reduced modulo `2 ^ 32`.
-/

/-- Word size modulus for the 32-bit arithmetic of MD5. -/
def w32 : Nat := 4294967296

/-- Bitwise complement within 32 bits. -/
def not32 (x : Nat) : Nat := x ^^^ 4294967295

/-- Left rotation of a 32-bit word by `s` places. -/
def rotl32 (x s : Nat) : Nat := ((x <<< s) ||| (x >>> (32 - s))) % w32

/-- The 64 sine-derived round constants `K[i] = floor(2^32 * |sin(i+1)|)`. -/
def md5K : List Nat :=
  [0xd76aa478, 0xe8c7b756, 0x242070db, 0xc1bdceee,
   0xf57c0faf, 0x4787c62a, 0xa8304613, 0xfd469501,
   0x698098d8, 0x8b44f7af, 0xffff5bb1, 0x895cd7be,
   0x6b901122, 0xfd987193, 0xa679438e, 0x49b40821,
   0xf61e2562, 0xc040b340, 0x265e5a51, 0xe9b6c7aa,
   0xd62f105d, 0x02441453, 0xd8a1e681, 0xe7d3fbc8,
   0x21e1cde6, 0xc33707d6, 0xf4d50d87, 0x455a14ed,
   0xa9e3e905, 0xfcefa3f8, 0x676f02d9, 0x8d2a4c8a,
   0xfffa3942, 0x8771f681, 0x6d9d6122, 0xfde5380c,
   0xa4beea44, 0x4bdecfa9, 0xf6bb4b60, 0xbebfbc70,
   0x289b7ec6, 0xeaa127fa, 0xd4ef3085, 0x04881d05,
   0xd9d4d039, 0xe6db99e5, 0x1fa27cf8, 0xc4ac5665,
   0xf4292244, 0x432aff97, 0xab9423a7, 0xfc93a039,
   0x655b59c3, 0x8f0ccc92, 0xffeff47d, 0x85845dd1,
   0x6fa87e4f, 0xfe2ce6e0, 0xa3014314, 0x4e0811a1,
   0xf7537e82, 0xbd3af235, 0x2ad7d2bb, 0xeb86d391]

/-- The per-round left-rotation amounts. -/
def md5S : List Nat :=
  [7, 12, 17, 22, 7, 12, 17, 22, 7, 12, 17, 22, 7, 12, 17, 22,
   5, 9, 14, 20, 5, 9, 14, 20, 5, 9, 14, 20, 5, 9, 14, 20,
   4, 11, 16, 23, 4, 11, 16, 23, 4, 11, 16, 23, 4, 11, 16, 23,
   6, 10, 15, 21, 6, 10, 15, 21, 6, 10, 15, 21, 6, 10, 15, 21]

/-- The round mixing function, by round quarter. -/
def md5F (i b c d : Nat) : Nat :=
  if i < 16 then (b &&& c) ||| (not32 b &&& d)
  else if i < 32 then (d &&& b) ||| (not32 d &&& c)
  else if i < 48 then b ^^^ c ^^^ d
  else c ^^^ (b ||| not32 d)

/-- The message-word index used in round `i`. -/
def md5G (i : Nat) : Nat :=
  if i < 16 then i
  else if i < 32 then (5 * i + 1) % 16
  else if i < 48 then (3 * i + 5) % 16
  else (7 * i) % 16

/-- The running state of the compression function. -/
structure MD5State where
  a : Nat
  b : Nat
  c : Nat
  d : Nat

/-- Initial chaining value of MD5. -/
def md5Init : MD5State := ⟨0x67452301, 0xefcdab89, 0x98badcfe, 0x10325476⟩

/-- A 32-bit little-endian word from up to four bytes. -/
def leWord (bs : List Nat) : Nat := bs.foldr (fun b acc => b + 256 * acc) 0

/-- One round of the compression function over the 16 message words `M`. -/
def md5Round (M : List Nat) (st : MD5State) (i : Nat) : MD5State :=
  let f := (md5F i st.b st.c st.d + st.a + md5K.getD i 0
            + M.getD (md5G i) 0) % w32
  ⟨st.d, (st.b + rotl32 f (md5S.getD i 0)) % w32, st.b, st.c⟩

/-- Process one 64-byte chunk: 64 rounds, then add the result into the
chaining value (all modulo `2 ^ 32`). -/
def md5Chunk (st : MD5State) (chunk : List Nat) : MD5State :=
  let M := (List.range 16).map (fun j => leWord ((chunk.drop (4 * j)).take 4))
  let r := (List.range 64).foldl (md5Round M) st
  ⟨(st.a + r.a) % w32, (st.b + r.b) % w32, (st.c + r.c) % w32,
   (st.d + r.d) % w32⟩

/-- MD5 padding: a `0x80` byte, zeros to 56 mod 64, then the bit length as a
64-bit little-endian quantity. -/
def md5Pad (msg : List Nat) : List Nat :=
  let L := msg.length
  let zeros := (56 + 64 - (L + 1) % 64) % 64
  msg ++ [0x80] ++ List.replicate zeros 0
      ++ (List.range 8).map (fun j => (((8 * L) % 18446744073709551616) >>> (8 * j)) % 256)

/-- The four final chaining words as sixteen little-endian digest bytes. -/
def md5StateBytes (st : MD5State) : List Nat :=
  [st.a, st.b, st.c, st.d].flatMap (fun x =>
    (List.range 4).map (fun j => (x >>> (8 * j)) % 256))

/-- The MD5 digest of a byte sequence, as its sixteen bytes. -/
def md5Bytes (msg : List Nat) : List Nat :=
  let padded := md5Pad msg
  let chunks := (List.range (padded.length / 64)).map
    (fun j => (padded.drop (64 * j)).take 64)
  md5StateBytes (chunks.foldl md5Chunk md5Init)

/-- The lowercase hexadecimal digit for a value below 16, by code point:
48 is the code point of the zero digit and 87 + 10 that of the letter a. -/
def hexDigit (n : Nat) : Char :=
  if n < 10 then Char.ofNat (48 + n) else Char.ofNat (87 + n)

/-- A byte rendered as two lowercase hexadecimal characters, as in Python's
`hexdigest()`. -/
def byteToHex (b : Nat) : List Char :=
  [hexDigit (b / 16 % 16), hexDigit (b % 16)]

/-- The bytes of a string under `str.encode()`.  All strings this development
digests are ASCII, for which UTF-8 encoding is the identity on code points. -/
def strBytes (s : String) : List Nat := s.data.map Char.toNat

/-- `hashlib.md5(s.encode()).hexdigest()`: the 32-character lowercase
hexadecimal MD5 digest of a string. -/
def md5Hex (s : String) : String :=
  String.mk ((md5Bytes (strBytes s)).flatMap byteToHex)

/-!
### Session store

`SessionManager` keeps `self.sessions: Dict[str, Dict[str, Any]]`, modelled
as an association list in insertion order.  `datetime` instants and
`timedelta` durations are modelled in seconds, so `timedelta(days=1)` is
`86400` and `timedelta(minutes=30)` is `1800`.
-/

/-- One session dict as created by `SessionManager.get_or_create_session`.
The `bypass_expiry` key is absent until `increment_ad_view` first sets it,
hence an `Option`. -/
structure Session where
  id : String
  created_at : Nat
  last_seen : Nat
  download_count : Nat
  fetch_count : Nat
  daily_downloads : Nat
  last_reset : Nat
  is_premium : Bool
  ad_views : Nat
  bypass_delay : Bool
  bypass_expiry : Option Nat
deriving DecidableEq

/-- The session dictionary of a `SessionManager` instance. -/
abbrev SessionStore : Type := List (String × Session)

/-- The return dict of `SessionManager.get_rate_limit_status`.  `remaining`
is an integer because Python computes `daily_limit - daily_downloads` before
clamping, and `reset_time` is absent from the unknown-id and premium
replies. -/
structure RateLimitStatus where
  limited : Bool
  remaining : Int
  reset_time : Option Nat
deriving DecidableEq

/-- Update the binding of `sid` in place, if present (`self.sessions[sid]`
mutation).  Leaves the store unchanged when `sid` is absent. -/
def updateSession (sid : String) (f : Session → Session) (store : SessionStore) :
    SessionStore :=
  store.map (fun p => if p.1 == sid then (p.1, f p.2) else p)

namespace SessionManager

/-- `SessionManager._get_session_id`: the MD5 hex digest of
`f"{ip}_{user_agent}"`. -/
def session_id (ip user_agent : String) : String :=
  md5Hex (ip ++ "_" ++ user_agent)

/-- The fresh session dict literal of `get_or_create_session`. -/
def freshSession (now : Nat) (sid : String) : Session :=
  { id := sid
    created_at := now
    last_seen := now
    download_count := 0
    fetch_count := 0
    daily_downloads := 0
    last_reset := now
    is_premium := false
    ad_views := 0
    bypass_delay := false
    bypass_expiry := none }

/-- `SessionManager.get_or_create_session`: create a zeroed session on first
contact; otherwise refresh `last_seen` and, when strictly more than one day
has passed since `last_reset`, zero `daily_downloads` and advance
`last_reset`.  Returns the resulting session together with the store. -/
def get_or_create_session (now : Nat) (ip user_agent : String)
    (store : SessionStore) : Session × SessionStore :=
  let sid := session_id ip user_agent
  match store.lookup sid with
  | none =>
    let s := freshSession now sid
    (s, store ++ [(sid, s)])
  | some s =>
    let s1 := { s with last_seen := now }
    let s2 :=
      if now - s1.last_reset > 86400 then
        { s1 with daily_downloads := 0, last_reset := now }
      else s1
    (s2, updateSession sid (fun _ => s2) store)

/-- `SessionManager.increment_download`: bump the lifetime and daily download
counters of a known session; no-op for an unknown id. -/
def increment_download (sid : String) (store : SessionStore) : SessionStore :=
  updateSession sid
    (fun s => { s with
      download_count := s.download_count + 1
      daily_downloads := s.daily_downloads + 1 }) store

/-- `SessionManager.increment_ad_view`: bump `ad_views` of a known session;
whenever the incremented count is at least 3, set the bypass flag and stamp
`bypass_expiry = now + 30 minutes`.  No-op for an unknown id. -/
def increment_ad_view (now : Nat) (sid : String) (store : SessionStore) :
    SessionStore :=
  updateSession sid
    (fun s =>
      let s1 := { s with ad_views := s.ad_views + 1 }
      if s1.ad_views ≥ 3 then
        { s1 with bypass_delay := true, bypass_expiry := some (now + 1800) }
      else s1) store

/-- `SessionManager.should_show_delay`: `True` for an unknown id; `False`
for premium sessions; `False` while a bypass window is running
(`session.get('bypass_expiry', datetime.now())` defaults a missing stamp to
`now`, which counts as expired); an expired bypass clears the flag as a side
effect and yields `True`; otherwise `True`. -/
def should_show_delay (now : Nat) (sid : String) (store : SessionStore) :
    Bool × SessionStore :=
  match store.lookup sid with
  | none => (true, store)
  | some s =>
    if s.is_premium then (false, store)
    else if s.bypass_delay then
      if now < s.bypass_expiry.getD now then (false, store)
      else (true, updateSession sid (fun _ => { s with bypass_delay := false }) store)
    else (true, store)

/-- `SessionManager.get_rate_limit_status`: permissive default for an
unknown id, `remaining = 999` for premium, otherwise the fixed daily quota
of 10 with `remaining` clamped at zero and `reset_time = last_reset + 1 day`. -/
def get_rate_limit_status (sid : String) (store : SessionStore) :
    RateLimitStatus :=
  match store.lookup sid with
  | none => ⟨false, 10, none⟩
  | some s =>
    if s.is_premium then ⟨false, 999, none⟩
    else
      let remaining : Int := 10 - s.daily_downloads
      ⟨decide (remaining ≤ 0), max 0 remaining, some (s.last_reset + 86400)⟩

end SessionManager

/-- One public cache operation together with the clock value and arguments it
is invoked with. -/
inductive CacheOp (α : Type) where
  | get (now : Nat) (key : String)
  | set (now : Nat) (key : String) (data : α) (ttl : Option Nat)
  | invalidate (key : String)
  | clear
  | cleanup (now : Nat)

/-- Apply one operation to the cache state, discarding the return value. -/
def applyOp : CacheOp α → CacheState α → CacheState α
  | .get now key, st => (CacheManager.get now key st).2
  | .set now key data ttl, st => CacheManager.set now key data ttl st
  | .invalidate key, st => (CacheManager.invalidate key st).2
  | .clear, st => CacheManager.clear st
  | .cleanup now, st => (CacheManager.cleanup_expired now st).2

/-- Run a sequence of cache operations from a starting state. -/
def runOps (ops : List (CacheOp α)) (st : CacheState α) : CacheState α :=
  ops.foldl (fun s o => applyOp o s) st

/-!
### Auxiliary lemmas
-/

theorem length_enforceMaxSize (m : Nat) (l : List (String × CacheEntry α)) :
    (enforceMaxSize m l).length = min m l.length := by
  induction l with
  | nil => simp [enforceMaxSize]
  | cons x xs ih =>
    rw [enforceMaxSize]
    split
    · rw [ih]
      simp only [List.length_cons]
      omega
    · simp only [List.length_cons]
      omega

theorem enforceMaxSize_eq_drop (m : Nat) (l : List (String × CacheEntry α)) :
    enforceMaxSize m l = l.drop (l.length - m) := by
  induction l with
  | nil => simp [enforceMaxSize]
  | cons x xs ih =>
    rw [enforceMaxSize]
    split
    · rename_i h
      have hx : xs.length + 1 - m = (xs.length - m) + 1 := by omega
      rw [ih, List.length_cons, hx, List.drop_succ_cons]
    · rename_i h
      have hx : xs.length + 1 - m = 0 := by omega
      rw [List.length_cons, hx, List.drop_zero]

theorem length_eraseKey_le (k : String) (l : List (String × CacheEntry α)) :
    (eraseKey k l).length ≤ l.length :=
  List.length_filter_le _ _

theorem mem_eraseKey {k : String} {l : List (String × CacheEntry α)}
    {p : String × CacheEntry α} : p ∈ eraseKey k l ↔ p ∈ l ∧ p.1 ≠ k := by
  simp [eraseKey, List.mem_filter, bne_iff_ne]

theorem lookup_eraseKey_self (k : String) (l : List (String × CacheEntry α)) :
    (eraseKey k l).lookup k = none := by
  induction l with
  | nil => simp [eraseKey]
  | cons p l ih =>
    rw [eraseKey, List.filter_cons]
    split
    · rename_i h
      have hne : p.1 ≠ k := bne_iff_ne.mp h
      have : (k == p.1) = false := beq_eq_false_iff_ne.mpr (Ne.symm hne)
      cases p with
      | mk a e => rw [List.lookup_cons]; simp only at this; rw [this]; exact ih
    · exact ih

theorem length_eraseKey_lt {k : String} {l : List (String × CacheEntry α)}
    {e : CacheEntry α} (h : l.lookup k = some e) :
    (eraseKey k l).length < l.length := by
  induction l with
  | nil => simp at h
  | cons p l ih =>
    cases p with
    | mk a b =>
      rw [List.lookup_cons] at h
      rw [eraseKey, List.filter_cons]
      by_cases hk : k = a
      · have : (a != k) = false := by
          simp [bne_iff_ne, hk.symm]
        simp only [this, if_false, List.length_cons]
        exact Nat.lt_succ_of_le (List.length_filter_le _ _)
      · have hbk : (k == a) = false := beq_eq_false_iff_ne.mpr hk
        simp only [hbk] at h
        have : (a != k) = true := bne_iff_ne.mpr (Ne.symm hk)
        simp only [this, if_true, List.length_cons]
        exact Nat.succ_lt_succ (ih h)

theorem lookup_append_single {l : List (String × CacheEntry α)} {k : String}
    {e : CacheEntry α} (h : ∀ p ∈ l, p.1 ≠ k) :
    (l ++ [(k, e)]).lookup k = some e := by
  induction l with
  | nil => simp [List.lookup_cons]
  | cons p l ih =>
    cases p with
    | mk a b =>
      have ha : a ≠ k := h (a, b) (List.mem_cons_self _ _)
      have : (k == a) = false := beq_eq_false_iff_ne.mpr (Ne.symm ha)
      rw [List.cons_append, List.lookup_cons]
      simp only [this]
      exact ih (fun p hp => h p (List.mem_cons_of_mem _ hp))

theorem foldl_eraseKey_length_le (K : List String)
    (l : List (String × CacheEntry α)) :
    (K.foldl (fun c k => eraseKey k c) l).length ≤ l.length := by
  induction K generalizing l with
  | nil => exact Nat.le_refl _
  | cons k K ih =>
    rw [List.foldl_cons]
    exact Nat.le_trans (ih (eraseKey k l)) (length_eraseKey_le k l)

theorem foldl_eraseKey_eq_filter (K : List String)
    (l : List (String × CacheEntry α)) :
    K.foldl (fun c k => eraseKey k c) l
      = l.filter (fun p => !(K.contains p.1)) := by
  induction K generalizing l with
  | nil => simp
  | cons k K ih =>
    rw [List.foldl_cons, ih, eraseKey, List.filter_filter]
    refine List.filter_congr (fun p _ => ?_)
    rw [List.contains_cons, Bool.not_or, Bool.and_comm]
    rfl

theorem lookup_updateSession_self (sid : String) (f : Session → Session)
    (store : SessionStore) :
    (updateSession sid f store).lookup sid = (store.lookup sid).map f := by
  induction store with
  | nil => simp [updateSession]
  | cons p l ih =>
    cases p with
    | mk a s =>
      by_cases ha : a = sid
      · subst ha
        simp [updateSession, List.lookup_cons]
      · have h1 : (a == sid) = false := beq_eq_false_iff_ne.mpr ha
        have h2 : (sid == a) = false := beq_eq_false_iff_ne.mpr (Ne.symm ha)
        simp only [updateSession, List.map_cons, h1, Bool.false_eq_true,
          if_false, List.lookup_cons, h2]
        exact ih

theorem updateSession_of_lookup_none {sid : String} {store : SessionStore}
    (h : store.lookup sid = none) (f : Session → Session) :
    updateSession sid f store = store := by
  induction store with
  | nil => rfl
  | cons p l ih =>
    cases p with
    | mk a s =>
      rw [List.lookup_cons] at h
      by_cases ha : sid = a
      · simp only [beq_iff_eq.mpr ha] at h
        exact Option.noConfusion h
      · have h1 : (sid == a) = false := beq_eq_false_iff_ne.mpr ha
        simp only [h1] at h
        have h2 : (a == sid) = false := beq_eq_false_iff_ne.mpr (Ne.symm ha)
        have hl := ih h
        simp only [updateSession, List.map_cons, h2, Bool.false_eq_true,
          if_false]
        simp only [updateSession] at hl
        rw [hl]

/-- Keys of a dictionary slice stay duplicate-free. -/
theorem nodup_keys_of_sublist {l l' : List (String × CacheEntry α)}
    (hs : l.Sublist l') (h : (l'.map Prod.fst).Nodup) :
    (l.map Prod.fst).Nodup :=
  List.Nodup.sublist (List.Sublist.map Prod.fst hs) h

/-- Deleting a key keeps the keys duplicate-free. -/
theorem nodup_keys_eraseKey {l : List (String × CacheEntry α)} (k : String)
    (h : (l.map Prod.fst).Nodup) :
    ((eraseKey k l).map Prod.fst).Nodup :=
  nodup_keys_of_sublist (List.filter_sublist l) h

/-- The deleted key no longer occurs among the keys. -/
theorem not_mem_keys_eraseKey (k : String)
    (l : List (String × CacheEntry α)) :
    k ∉ (eraseKey k l).map Prod.fst := by
  intro hk
  rcases List.mem_map.mp hk with ⟨p, hp, hfst⟩
  exact (mem_eraseKey.mp hp).2 hfst

/-- Writing a fresh binding after deleting its key keeps the keys
duplicate-free. -/
theorem nodup_keys_write (k : String) (e : CacheEntry α)
    {l : List (String × CacheEntry α)} (h : (l.map Prod.fst).Nodup) :
    (((eraseKey k l ++ [(k, e)]).map Prod.fst)).Nodup := by
  rw [List.map_append]
  exact List.nodup_append.mpr
    ⟨nodup_keys_eraseKey k h, List.nodup_singleton _,
      List.disjoint_singleton.mpr (not_mem_keys_eraseKey k l)⟩

/-- Every cache operation keeps the dictionary's keys duplicate-free, so
every state reachable from construction satisfies the no-duplicate-keys
invariant assumed by the cleanup theorem. -/
theorem applyOp_nodup_keys (o : CacheOp α) (st : CacheState α)
    (h : (st.cache.map Prod.fst).Nodup) :
    ((applyOp o st).cache.map Prod.fst).Nodup := by
  cases o with
  | get now key =>
    rw [applyOp, CacheManager.get]
    cases hl : st.cache.lookup key with
    | none => exact h
    | some e =>
      dsimp only
      split
      · exact nodup_keys_write key e h
      · exact nodup_keys_eraseKey key h
  | set now key data ttl =>
    rw [applyOp, CacheManager.set]
    dsimp only
    rw [enforceMaxSize_eq_drop]
    exact nodup_keys_of_sublist (List.drop_sublist _ _) (nodup_keys_write key _ h)
  | invalidate key =>
    rw [applyOp, CacheManager.invalidate]
    cases st.cache.lookup key with
    | none => exact h
    | some e => exact nodup_keys_eraseKey key h
  | clear => simp [applyOp, CacheManager.clear]
  | cleanup now =>
    rw [applyOp, CacheManager.cleanup_expired]
    dsimp only
    rw [foldl_eraseKey_eq_filter]
    exact nodup_keys_of_sublist (List.filter_sublist _) h

/-- Key uniqueness holds after any operation sequence from construction. -/
theorem runOps_nodup_keys (ops : List (CacheOp α)) (N ttl : Nat) :
    ((runOps ops (initCache α N ttl)).cache.map Prod.fst).Nodup := by
  suffices hgen : ∀ (st : CacheState α), (st.cache.map Prod.fst).Nodup →
      ((runOps ops st).cache.map Prod.fst).Nodup from
    hgen (initCache α N ttl) (by simp [initCache])
  induction ops with
  | nil => exact fun st h => h
  | cons o ops ih =>
    intro st h
    exact ih (applyOp o st) (applyOp_nodup_keys o st h)

theorem applyOp_max_size (o : CacheOp α) (st : CacheState α) :
    (applyOp o st).max_size = st.max_size := by
  cases o with
  | get now key =>
    rw [applyOp, CacheManager.get]
    cases st.cache.lookup key with
    | none => rfl
    | some e =>
      dsimp only
      split <;> rfl
  | set now key data ttl => rfl
  | invalidate key =>
    rw [applyOp, CacheManager.invalidate]
    cases st.cache.lookup key with
    | none => rfl
    | some e => rfl
  | clear => rfl
  | cleanup now => rfl

theorem applyOp_length_le (o : CacheOp α) (st : CacheState α)
    (h : st.cache.length ≤ st.max_size) :
    (applyOp o st).cache.length ≤ st.max_size := by
  cases o with
  | get now key =>
    rw [applyOp, CacheManager.get]
    cases hl : st.cache.lookup key with
    | none => exact h
    | some e =>
      dsimp only
      split
      · dsimp only
        rw [List.length_append, List.length_singleton]
        exact Nat.le_trans (length_eraseKey_lt hl) h
      · exact Nat.le_trans (length_eraseKey_le key st.cache) h
  | set now key data ttl =>
    rw [applyOp, CacheManager.set]
    dsimp only
    rw [length_enforceMaxSize]
    exact Nat.min_le_left _ _
  | invalidate key =>
    rw [applyOp, CacheManager.invalidate]
    cases st.cache.lookup key with
    | none => exact h
    | some e => exact Nat.le_trans (length_eraseKey_le key st.cache) h
  | clear => exact Nat.zero_le _
  | cleanup now =>
    rw [applyOp, CacheManager.cleanup_expired]
    exact Nat.le_trans (foldl_eraseKey_length_le _ _) h

theorem runOps_nil (st : CacheState α) : runOps [] st = st :=
  rfl

theorem runOps_cons (o : CacheOp α) (ops : List (CacheOp α))
    (st : CacheState α) : runOps (o :: ops) st = runOps ops (applyOp o st) :=
  rfl

/-- The binding written by `set` survives the eviction loop and is found by
a lookup whenever the capacity is at least one: eviction only drops bindings
from the least-recently-used end, and the fresh binding sits at the other
end. -/
theorem lookup_enforce_append {α : Type} {m : Nat} (hm : 1 ≤ m)
    (l : List (String × CacheEntry α)) (key : String) (e : CacheEntry α) :
    (enforceMaxSize m (eraseKey key l ++ [(key, e)])).lookup key = some e := by
  rw [enforceMaxSize_eq_drop]
  have hd : (eraseKey key l ++ [(key, e)]).length - m
      ≤ (eraseKey key l).length := by
    rw [List.length_append, List.length_singleton]
    omega
  rw [List.drop_append_of_le_length hd]
  apply lookup_append_single
  intro p hp
  exact (mem_eraseKey.mp (List.drop_subset _ _ hp)).2

theorem runOps_max_size (ops : List (CacheOp α)) (st : CacheState α) :
    (runOps ops st).max_size = st.max_size := by
  induction ops generalizing st with
  | nil => rfl
  | cons o ops ih =>
    rw [runOps_cons, ih, applyOp_max_size]

theorem runOps_length_le_max (ops : List (CacheOp α)) (st : CacheState α)
    (h : st.cache.length ≤ st.max_size) :
    (runOps ops st).cache.length ≤ (runOps ops st).max_size := by
  induction ops generalizing st with
  | nil => exact h
  | cons o ops ih =>
    rw [runOps_cons]
    refine ih (applyOp o st) ?_
    rw [applyOp_max_size]
    exact applyOp_length_le o st h

/-!
### MD5 validation

RFC 1321 test vectors, checked by kernel evaluation of the embedding.
-/

example : md5Hex "" = "d41d8cd98f00b204e9800998ecf8427e" := by decide

example : md5Hex "abc" = "900150983cd24fb0d6963f7d28e17f72" := by decide

example :
    md5Hex "12345678901234567890123456789012345678901234567890123456789012345678901234567890"
      = "57edf4a22be3c955ac49da2e2107b67a" := by decide

/-!
### Claims
-/

/-- C1: for every sequence of cache operations on a cache constructed with
capacity `max_size = N`, the number of stored entries is at most `N` after
each operation completes (each prefix of a sequence is itself a sequence, so
the bound after every intermediate operation is an instance of this
statement); in particular `set` restores the bound by evicting until
`size ≤ N`. -/
theorem C1_cache_size_bounded {α : Type} (ops : List (CacheOp α))
    (N ttl : Nat) :
    ((runOps ops (initCache α N ttl)).cache).length ≤ N := by
  have h := runOps_length_le_max ops (initCache α N ttl) (Nat.zero_le _)
  rw [runOps_max_size] at h
  exact h

/-- C2: `get` returns the stored value exactly when an entry for the
normalised key is present and the current time is strictly before its
`expires_at`; a hit moves the entry to the most-recently-used end and bumps
the hit counter; a present-but-expired entry is removed and counted as a
miss; an absent key is counted as a miss; both negative cases return the
miss value `none` rather than failing. -/
theorem C2_get_contract {α : Type} (now : Nat) (key : String)
    (st : CacheState α) :
    ((∃ v, (CacheManager.get now key st).1 = some v) ↔
      (∃ e, st.cache.lookup key = some e ∧ now < e.expires_at)) ∧
    (∀ e, st.cache.lookup key = some e → now < e.expires_at →
      (CacheManager.get now key st).1 = some e.data ∧
      (CacheManager.get now key st).2.cache
        = eraseKey key st.cache ++ [(key, e)] ∧
      (CacheManager.get now key st).2.hit_count = st.hit_count + 1 ∧
      (CacheManager.get now key st).2.miss_count = st.miss_count) ∧
    (∀ e, st.cache.lookup key = some e → e.expires_at ≤ now →
      (CacheManager.get now key st).1 = none ∧
      (CacheManager.get now key st).2.cache.lookup key = none ∧
      (CacheManager.get now key st).2.miss_count = st.miss_count + 1 ∧
      (CacheManager.get now key st).2.hit_count = st.hit_count) ∧
    (st.cache.lookup key = none →
      (CacheManager.get now key st).1 = none ∧
      (CacheManager.get now key st).2
        = { st with miss_count := st.miss_count + 1 }) := by
  cases hl : st.cache.lookup key with
  | none =>
    simp [CacheManager.get, hl]
  | some e =>
    by_cases he : now < e.expires_at
    · refine ⟨?_, ?_, ?_, ?_⟩
      · simp [CacheManager.get, hl, he]
      · intro e' he' hlt
        cases he'
        simp [CacheManager.get, hl, he]
      · intro e' he' hexp
        cases he'
        omega
      · intro hn
        exact Option.noConfusion hn
    · refine ⟨?_, ?_, ?_, ?_⟩
      · constructor
        · rintro ⟨v, hv⟩
          simp [CacheManager.get, hl, he] at hv
        · rintro ⟨e', he', hlt⟩
          cases he'
          exact absurd hlt he
      · intro e' he' hlt
        cases he'
        exact absurd hlt he
      · intro e' he' hexp
        cases he'
        simp [CacheManager.get, hl, he, lookup_eraseKey_self]
      · intro hn
        exact Option.noConfusion hn

/-- C2 witness: a hit, an expired access, and an absent key on concrete
states, obtained from the contract theorem. -/
theorem C2_get_contract_witness :
    (CacheManager.get 5 "k"
      ⟨[("k", ⟨(42 : Nat), 10, 0, "k"⟩)], 5, 300, 0, 0⟩).1 = some 42 ∧
    (CacheManager.get 20 "k"
      ⟨[("k", ⟨(42 : Nat), 10, 0, "k"⟩)], 5, 300, 0, 0⟩).2.cache.lookup "k"
        = none ∧
    (CacheManager.get 5 "absent"
      ⟨[("k", ⟨(42 : Nat), 10, 0, "k"⟩)], 5, 300, 0, 0⟩).1 = none := by
  refine ⟨?_, ?_, ?_⟩
  · exact ((C2_get_contract 5 "k"
      ⟨[("k", ⟨(42 : Nat), 10, 0, "k"⟩)], 5, 300, 0, 0⟩).2.1
      ⟨42, 10, 0, "k"⟩ rfl (by decide)).1
  · exact ((C2_get_contract 20 "k"
      ⟨[("k", ⟨(42 : Nat), 10, 0, "k"⟩)], 5, 300, 0, 0⟩).2.2.1
      ⟨42, 10, 0, "k"⟩ rfl (by decide)).2.1
  · exact ((C2_get_contract 5 "absent"
      ⟨[("k", ⟨(42 : Nat), 10, 0, "k"⟩)], 5, 300, 0, 0⟩).2.2.2 rfl).1

/-- C3 counterexample: `increment_download` touches an existing session more
than 24 hours (86400 s) after its `last_reset` — at call time 200000 with
`last_reset = 0` — yet afterwards `daily_downloads` is 6, not 0, and
`last_reset` still reads 0; only `get_or_create_session` performs the daily
rollover. -/
theorem C3_counterexample :
    (200000 : Nat) - 0 > 86400 ∧
    (SessionManager.increment_download "sid1"
        [("sid1", ⟨"sid1", 0, 0, 0, 0, 5, 0, false, 0, false, none⟩)]).lookup
      "sid1" = some ⟨"sid1", 0, 0, 1, 0, 6, 0, false, 0, false, none⟩ ∧
    (6 : Nat) ≠ 0 ∧ (0 : Nat) ≠ 200000 := by decide

/-- C3 (amended): only `get_or_create_session` performs the daily rollover —
when it touches an existing session strictly more than 24 hours after its
`last_reset`, the returned session (which is also the one stored) has
`daily_downloads = 0` and `last_reset` advanced to the call time; the other
session operations do not reset these fields. -/
theorem C3_rollover (now : Nat) (ip ua : String) (store : SessionStore)
    (s : Session)
    (h1 : store.lookup (SessionManager.session_id ip ua) = some s)
    (h2 : now - s.last_reset > 86400) :
    (SessionManager.get_or_create_session now ip ua store).1.daily_downloads
        = 0 ∧
    (SessionManager.get_or_create_session now ip ua store).1.last_reset
        = now ∧
    (SessionManager.get_or_create_session now ip ua store).2.lookup
        (SessionManager.session_id ip ua)
      = some (SessionManager.get_or_create_session now ip ua store).1 := by
  have h2' : now - ({ s with last_seen := now } : Session).last_reset > 86400 := h2
  refine ⟨?_, ?_, ?_⟩ <;>
    simp [SessionManager.get_or_create_session, h1, h2',
      lookup_updateSession_self]

/-- C3 witness: a concrete store whose single session has `last_reset = 0`
and `daily_downloads = 5`, touched by `get_or_create_session` at time
100000. -/
theorem C3_rollover_witness :
    (SessionManager.get_or_create_session 100000 "1.2.3.4" "UA"
      [(SessionManager.session_id "1.2.3.4" "UA",
        ⟨SessionManager.session_id "1.2.3.4" "UA",
          0, 0, 0, 0, 5, 0, false, 0, false, none⟩)]).1.daily_downloads = 0 ∧
    (SessionManager.get_or_create_session 100000 "1.2.3.4" "UA"
      [(SessionManager.session_id "1.2.3.4" "UA",
        ⟨SessionManager.session_id "1.2.3.4" "UA",
          0, 0, 0, 0, 5, 0, false, 0, false, none⟩)]).1.last_reset
      = 100000 := by
  have h := C3_rollover 100000 "1.2.3.4" "UA"
    [(SessionManager.session_id "1.2.3.4" "UA",
      ⟨SessionManager.session_id "1.2.3.4" "UA",
        0, 0, 0, 0, 5, 0, false, 0, false, none⟩)]
    ⟨SessionManager.session_id "1.2.3.4" "UA",
      0, 0, 0, 0, 5, 0, false, 0, false, none⟩
    rfl (by decide)
  exact ⟨h.1, h.2.1⟩

/-- C4: `get_rate_limit_status` answers `{limited: false, remaining: 10}`
with no reset time for an unknown id, `{limited: false, remaining: 999}` for
a premium session, and otherwise `remaining = max 0 (10 - daily_downloads)`,
`limited` exactly when `10 - daily_downloads ≤ 0`, and
`reset_time = last_reset + 24h`; it never fails on an unknown identity. -/
theorem C4_rate_limit_status (sid : String) (store : SessionStore) :
    (store.lookup sid = none →
      SessionManager.get_rate_limit_status sid store = ⟨false, 10, none⟩) ∧
    (∀ s, store.lookup sid = some s → s.is_premium = true →
      SessionManager.get_rate_limit_status sid store = ⟨false, 999, none⟩) ∧
    (∀ s, store.lookup sid = some s → s.is_premium = false →
      ((SessionManager.get_rate_limit_status sid store).limited = true ↔
        (10 : Int) - s.daily_downloads ≤ 0) ∧
      (SessionManager.get_rate_limit_status sid store).remaining
        = max 0 ((10 : Int) - s.daily_downloads) ∧
      (SessionManager.get_rate_limit_status sid store).reset_time
        = some (s.last_reset + 86400)) := by
  cases hl : store.lookup sid with
  | none => simp [SessionManager.get_rate_limit_status, hl]
  | some s =>
    refine ⟨fun hn => Option.noConfusion hn, ?_, ?_⟩
    · intro s' hs hp
      cases hs
      simp [SessionManager.get_rate_limit_status, hl, hp]
    · intro s' hs hp
      cases hs
      simp [SessionManager.get_rate_limit_status, hl, hp]

/-- C4 witness: an unknown id on the empty store, a premium session with 10
daily downloads, and a free session at the quota
(`limited = true`, `remaining = 0`). -/
theorem C4_rate_limit_status_witness :
    SessionManager.get_rate_limit_status "x" [] = ⟨false, 10, none⟩ ∧
    SessionManager.get_rate_limit_status "p"
        [("p", ⟨"p", 0, 0, 0, 0, 10, 0, true, 0, false, none⟩)]
      = ⟨false, 999, none⟩ ∧
    (SessionManager.get_rate_limit_status "f"
        [("f", ⟨"f", 0, 0, 0, 0, 10, 7, false, 0, false, none⟩)]).limited
      = true ∧
    (SessionManager.get_rate_limit_status "f"
        [("f", ⟨"f", 0, 0, 0, 0, 10, 7, false, 0, false, none⟩)]).remaining
      = 0 := by
  refine ⟨?_, ?_, ?_, ?_⟩
  · exact (C4_rate_limit_status "x" []).1 rfl
  · exact (C4_rate_limit_status "p"
      [("p", ⟨"p", 0, 0, 0, 0, 10, 0, true, 0, false, none⟩)]).2.1
      ⟨"p", 0, 0, 0, 0, 10, 0, true, 0, false, none⟩ rfl rfl
  · exact ((C4_rate_limit_status "f"
      [("f", ⟨"f", 0, 0, 0, 0, 10, 7, false, 0, false, none⟩)]).2.2
      ⟨"f", 0, 0, 0, 0, 10, 7, false, 0, false, none⟩ rfl rfl).1.mpr
      (by decide)
  · have h := ((C4_rate_limit_status "f"
      [("f", ⟨"f", 0, 0, 0, 0, 10, 7, false, 0, false, none⟩)]).2.2
      ⟨"f", 0, 0, 0, 0, 10, 7, false, 0, false, none⟩ rfl rfl).2.1
    rw [h]
    decide

/-- C5: `should_show_delay` is `true` for an unknown id and leaves the store
untouched; for a known session it is `false` for premium regardless of
bypass state, `false` while a bypass window is active (`now < bypass_expiry`),
clears the bypass flag and answers `true` when the flag is set but the
window has expired, and answers `true` when no bypass flag is set. -/
theorem C5_should_show_delay (now : Nat) (sid : String)
    (store : SessionStore) :
    (store.lookup sid = none →
      SessionManager.should_show_delay now sid store = (true, store)) ∧
    (∀ s, store.lookup sid = some s → s.is_premium = true →
      SessionManager.should_show_delay now sid store = (false, store)) ∧
    (∀ s t, store.lookup sid = some s → s.is_premium = false →
      s.bypass_delay = true → s.bypass_expiry = some t → now < t →
      SessionManager.should_show_delay now sid store = (false, store)) ∧
    (∀ s, store.lookup sid = some s → s.is_premium = false →
      s.bypass_delay = true → s.bypass_expiry.getD now ≤ now →
      (SessionManager.should_show_delay now sid store).1 = true ∧
      (SessionManager.should_show_delay now sid store).2.lookup sid
        = some { s with bypass_delay := false }) ∧
    (∀ s, store.lookup sid = some s → s.is_premium = false →
      s.bypass_delay = false →
      SessionManager.should_show_delay now sid store = (true, store)) := by
  cases hl : store.lookup sid with
  | none => simp [SessionManager.should_show_delay, hl]
  | some s =>
    refine ⟨fun hn => Option.noConfusion hn, ?_, ?_, ?_, ?_⟩
    · intro s' hs hp
      cases hs
      simp [SessionManager.should_show_delay, hl, hp]
    · intro s' t hs hp hb hbe hlt
      cases hs
      simp [SessionManager.should_show_delay, hl, hp, hb, hbe, hlt]
    · intro s' hs hp hb hle
      cases hs
      have hnlt := Nat.not_lt.mpr hle
      simp [SessionManager.should_show_delay, hl, hp, hb, hnlt,
        lookup_updateSession_self]
    · intro s' hs hp hb
      cases hs
      simp [SessionManager.should_show_delay, hl, hp, hb]

/-- C5 witness: unknown id; premium with an expired window; active bypass
window; expired bypass window (flag cleared); no bypass. -/
theorem C5_should_show_delay_witness :
    SessionManager.should_show_delay 50 "x" [] = (true, []) ∧
    SessionManager.should_show_delay 50 "p"
        [("p", ⟨"p", 0, 0, 0, 0, 0, 0, true, 0, true, some 10⟩)]
      = (false, [("p", ⟨"p", 0, 0, 0, 0, 0, 0, true, 0, true, some 10⟩)]) ∧
    SessionManager.should_show_delay 50 "b"
        [("b", ⟨"b", 0, 0, 0, 0, 0, 0, false, 3, true, some 60⟩)]
      = (false, [("b", ⟨"b", 0, 0, 0, 0, 0, 0, false, 3, true, some 60⟩)]) ∧
    ((SessionManager.should_show_delay 50 "e"
        [("e", ⟨"e", 0, 0, 0, 0, 0, 0, false, 3, true, some 40⟩)]).1 = true ∧
      (SessionManager.should_show_delay 50 "e"
        [("e", ⟨"e", 0, 0, 0, 0, 0, 0, false, 3, true, some 40⟩)]).2.lookup "e"
        = some ⟨"e", 0, 0, 0, 0, 0, 0, false, 3, false, some 40⟩) ∧
    SessionManager.should_show_delay 50 "n"
        [("n", ⟨"n", 0, 0, 0, 0, 0, 0, false, 0, false, none⟩)]
      = (true, [("n", ⟨"n", 0, 0, 0, 0, 0, 0, false, 0, false, none⟩)]) := by
  refine ⟨?_, ?_, ?_, ?_, ?_⟩
  · exact (C5_should_show_delay 50 "x" []).1 rfl
  · exact (C5_should_show_delay 50 "p"
      [("p", ⟨"p", 0, 0, 0, 0, 0, 0, true, 0, true, some 10⟩)]).2.1
      ⟨"p", 0, 0, 0, 0, 0, 0, true, 0, true, some 10⟩ rfl rfl
  · exact (C5_should_show_delay 50 "b"
      [("b", ⟨"b", 0, 0, 0, 0, 0, 0, false, 3, true, some 60⟩)]).2.2.1
      ⟨"b", 0, 0, 0, 0, 0, 0, false, 3, true, some 60⟩ 60 rfl rfl rfl rfl
      (by decide)
  · exact (C5_should_show_delay 50 "e"
      [("e", ⟨"e", 0, 0, 0, 0, 0, 0, false, 3, true, some 40⟩)]).2.2.2.1
      ⟨"e", 0, 0, 0, 0, 0, 0, false, 3, true, some 40⟩ rfl rfl rfl
      (by decide)
  · exact (C5_should_show_delay 50 "n"
      [("n", ⟨"n", 0, 0, 0, 0, 0, 0, false, 0, false, none⟩)]).2.2.2.2
      ⟨"n", 0, 0, 0, 0, 0, 0, false, 0, false, none⟩ rfl rfl rfl

/-- C6: `increment_ad_view` with an unknown id leaves the store unchanged;
with a known id it increments `ad_views` by exactly 1, and on every call
after which `ad_views ≥ 3` — not only the crossing call — it sets the bypass
flag and restamps `bypass_expiry = now + 30 minutes`, re-extending the
window; below the threshold only the counter changes. -/
theorem C6_increment_ad_view (now : Nat) (sid : String)
    (store : SessionStore) :
    (store.lookup sid = none →
      SessionManager.increment_ad_view now sid store = store) ∧
    (∀ s, store.lookup sid = some s → s.ad_views + 1 ≥ 3 →
      (SessionManager.increment_ad_view now sid store).lookup sid
        = some { s with ad_views := s.ad_views + 1, bypass_delay := true,
                        bypass_expiry := some (now + 1800) }) ∧
    (∀ s, store.lookup sid = some s → s.ad_views + 1 < 3 →
      (SessionManager.increment_ad_view now sid store).lookup sid
        = some { s with ad_views := s.ad_views + 1 }) := by
  refine ⟨?_, ?_, ?_⟩
  · intro hn
    exact updateSession_of_lookup_none hn _
  · intro s hs h3
    simp [SessionManager.increment_ad_view, lookup_updateSession_self, hs, h3]
    intro hcon
    exact absurd h3 (by omega)
  · intro s hs h3
    have h3' : ¬ s.ad_views + 1 ≥ 3 := Nat.not_le.mpr h3
    simp [SessionManager.increment_ad_view, lookup_updateSession_self, hs, h3']
    intro hcon
    exact absurd hcon (by omega)

/-- C6 witness: unknown id no-op; a call from `ad_views = 2` (crossing the
threshold) and one from `ad_views = 5` (past it, re-extending the window);
a call from `ad_views = 0`. -/
theorem C6_increment_ad_view_witness :
    SessionManager.increment_ad_view 100 "x" [] = [] ∧
    (SessionManager.increment_ad_view 100 "s"
        [("s", ⟨"s", 0, 0, 0, 0, 0, 0, false, 2, false, none⟩)]).lookup "s"
      = some ⟨"s", 0, 0, 0, 0, 0, 0, false, 3, true, some 1900⟩ ∧
    (SessionManager.increment_ad_view 100 "s"
        [("s", ⟨"s", 0, 0, 0, 0, 0, 0, false, 5, true, some 50⟩)]).lookup "s"
      = some ⟨"s", 0, 0, 0, 0, 0, 0, false, 6, true, some 1900⟩ ∧
    (SessionManager.increment_ad_view 100 "s"
        [("s", ⟨"s", 0, 0, 0, 0, 0, 0, false, 0, false, none⟩)]).lookup "s"
      = some ⟨"s", 0, 0, 0, 0, 0, 0, false, 1, false, none⟩ := by
  refine ⟨?_, ?_, ?_, ?_⟩
  · exact (C6_increment_ad_view 100 "x" []).1 rfl
  · exact (C6_increment_ad_view 100 "s"
      [("s", ⟨"s", 0, 0, 0, 0, 0, 0, false, 2, false, none⟩)]).2.1
      ⟨"s", 0, 0, 0, 0, 0, 0, false, 2, false, none⟩ rfl (by decide)
  · exact (C6_increment_ad_view 100 "s"
      [("s", ⟨"s", 0, 0, 0, 0, 0, 0, false, 5, true, some 50⟩)]).2.1
      ⟨"s", 0, 0, 0, 0, 0, 0, false, 5, true, some 50⟩ rfl (by decide)
  · exact (C6_increment_ad_view 100 "s"
      [("s", ⟨"s", 0, 0, 0, 0, 0, 0, false, 0, false, none⟩)]).2.2
      ⟨"s", 0, 0, 0, 0, 0, 0, false, 0, false, none⟩ rfl (by decide)

/-- C7: with capacity 2, distinct keys `A`, `B`, `C` and all calls made
before any entry expires, the sequence `set(A,v1); set(B,v2); get(A);
set(C,v3)` evicts exactly `B` (the least-recently-used entry after the hit
on `A` reordered it), so the final `get(A)` and `get(C)` are hits returning
`v1` and `v3` while `get(B)` misses. -/
theorem C7_lru_eviction {α : Type} (A B C : String) (v1 v2 v3 : α)
    (ttl n1 n2 n3 n4 n5 : Nat)
    (hAB : A ≠ B) (hAC : A ≠ C) (hBC : B ≠ C)
    (h12 : n1 ≤ n2) (h23 : n2 ≤ n3) (h34 : n3 ≤ n4) (h45 : n4 ≤ n5)
    (hexp : n5 < n1 + ttl) :
    (CacheManager.get n5 A
      (runOps [CacheOp.set n1 A v1 none, CacheOp.set n2 B v2 none,
        CacheOp.get n3 A, CacheOp.set n4 C v3 none]
        (initCache α 2 ttl))).1 = some v1 ∧
    (CacheManager.get n5 C
      (runOps [CacheOp.set n1 A v1 none, CacheOp.set n2 B v2 none,
        CacheOp.get n3 A, CacheOp.set n4 C v3 none]
        (initCache α 2 ttl))).1 = some v3 ∧
    (CacheManager.get n5 B
      (runOps [CacheOp.set n1 A v1 none, CacheOp.set n2 B v2 none,
        CacheOp.get n3 A, CacheOp.set n4 C v3 none]
        (initCache α 2 ttl))).1 = none ∧
    (runOps [CacheOp.set n1 A v1 none, CacheOp.set n2 B v2 none,
        CacheOp.get n3 A, CacheOp.set n4 C v3 none]
        (initCache α 2 ttl)).cache.lookup B = none := by
  have bAA : (A == A) = true := beq_self_eq_true A
  have bCC : (C == C) = true := beq_self_eq_true C
  have bCA : (C == A) = false := beq_eq_false_iff_ne.mpr (Ne.symm hAC)
  have bBA : (B == A) = false := beq_eq_false_iff_ne.mpr (Ne.symm hAB)
  have bBC : (B == C) = false := beq_eq_false_iff_ne.mpr hBC
  have bneAB : (A != B) = true := bne_iff_ne.mpr hAB
  have bneAA : (A != A) = false := by simp
  have bneBA : (B != A) = true := bne_iff_ne.mpr (Ne.symm hAB)
  have bneBC : (B != C) = true := bne_iff_ne.mpr hBC
  have bneAC : (A != C) = true := bne_iff_ne.mpr hAC
  have hn3 : n3 < n1 + ttl := by omega
  have hn5C : n5 < n4 + ttl := by omega
  have e1 : CacheManager.set n1 A v1 none (initCache α 2 ttl)
      = ⟨[(A, ⟨v1, n1 + ttl, n1, A⟩)], 2, ttl, 0, 0⟩ := by
    simp [CacheManager.set, initCache, CacheManager.effectiveTtl, eraseKey, enforceMaxSize]
  have e2 : CacheManager.set n2 B v2 none
        ⟨[(A, ⟨v1, n1 + ttl, n1, A⟩)], 2, ttl, 0, 0⟩
      = ⟨[(A, ⟨v1, n1 + ttl, n1, A⟩), (B, ⟨v2, n2 + ttl, n2, B⟩)],
          2, ttl, 0, 0⟩ := by
    simp [CacheManager.set, CacheManager.effectiveTtl, eraseKey, List.filter_cons,
      bneAB, enforceMaxSize]
  have e3 : CacheManager.get n3 A
        ⟨[(A, ⟨v1, n1 + ttl, n1, A⟩), (B, ⟨v2, n2 + ttl, n2, B⟩)],
          2, ttl, 0, 0⟩
      = (some v1,
          ⟨[(B, ⟨v2, n2 + ttl, n2, B⟩), (A, ⟨v1, n1 + ttl, n1, A⟩)],
            2, ttl, 1, 0⟩) := by
    simp [CacheManager.get, List.lookup_cons, bAA, hn3, eraseKey,
      List.filter_cons, bneAA, bneBA]
  have e4 : CacheManager.set n4 C v3 none
        ⟨[(B, ⟨v2, n2 + ttl, n2, B⟩), (A, ⟨v1, n1 + ttl, n1, A⟩)],
          2, ttl, 1, 0⟩
      = ⟨[(A, ⟨v1, n1 + ttl, n1, A⟩), (C, ⟨v3, n4 + ttl, n4, C⟩)],
          2, ttl, 1, 0⟩ := by
    simp [CacheManager.set, CacheManager.effectiveTtl, eraseKey, List.filter_cons,
      bneBC, bneAC, enforceMaxSize]
  have hst4 : runOps [CacheOp.set n1 A v1 none, CacheOp.set n2 B v2 none,
        CacheOp.get n3 A, CacheOp.set n4 C v3 none] (initCache α 2 ttl)
      = ⟨[(A, ⟨v1, n1 + ttl, n1, A⟩), (C, ⟨v3, n4 + ttl, n4, C⟩)],
          2, ttl, 1, 0⟩ := by
    simp only [runOps_cons, runOps_nil, applyOp]
    rw [e1, e2, e3]
    exact e4
  rw [hst4]
  refine ⟨?_, ?_, ?_, ?_⟩
  · simp [CacheManager.get, List.lookup_cons, bAA, hexp]
  · simp [CacheManager.get, List.lookup_cons, bCA, bCC, hn5C]
  · simp [CacheManager.get, List.lookup_cons, bBA, bBC]
  · simp [List.lookup_cons, bBA, bBC]

/-- C7 witness: the scenario run with keys `"a"`, `"b"`, `"c"`, values
`1`, `2`, `3`, default TTL 100 and call times `0, 1, 2, 3, 4`. -/
theorem C7_lru_eviction_witness :
    (CacheManager.get 4 "a"
      (runOps [CacheOp.set 0 "a" (1 : Nat) none, CacheOp.set 1 "b" 2 none,
        CacheOp.get 2 "a", CacheOp.set 3 "c" 3 none]
        (initCache Nat 2 100))).1 = some 1 ∧
    (CacheManager.get 4 "c"
      (runOps [CacheOp.set 0 "a" (1 : Nat) none, CacheOp.set 1 "b" 2 none,
        CacheOp.get 2 "a", CacheOp.set 3 "c" 3 none]
        (initCache Nat 2 100))).1 = some 3 ∧
    (CacheManager.get 4 "b"
      (runOps [CacheOp.set 0 "a" (1 : Nat) none, CacheOp.set 1 "b" 2 none,
        CacheOp.get 2 "a", CacheOp.set 3 "c" 3 none]
        (initCache Nat 2 100))).1 = none ∧
    (runOps [CacheOp.set 0 "a" (1 : Nat) none, CacheOp.set 1 "b" 2 none,
        CacheOp.get 2 "a", CacheOp.set 3 "c" 3 none]
        (initCache Nat 2 100)).cache.lookup "b" = none :=
  C7_lru_eviction "a" "b" "c" 1 2 3 100 0 1 2 3 4
    (by decide) (by decide) (by decide)
    (by decide) (by decide) (by decide) (by decide) (by decide)

/-- C8 counterexample: with `default_ttl = 300`, a `set` at time 1000 with
the explicitly provided `ttl = 0` stores `expires_at = 1300`, not
`1000 + 0`: Python's `ttl = ttl or self.default_ttl` treats the falsy
integer 0 as absent. -/
theorem C8_counterexample :
    (CacheManager.set 1000 "k" (7 : Nat) (some 0)
        (initCache Nat 10 300)).cache.lookup "k"
      = some ⟨7, 1300, 1000, "k"⟩ ∧ (1300 : Nat) ≠ 1000 + 0 := by decide

/-- C8 (amended): when `set` is called with an explicitly provided nonzero
`ttl`, the stored entry has `expires_at = now + ttl`; when `ttl` is omitted
— or is the falsy value 0, which Python's `or` treats as omitted — the entry
has `expires_at = now + default_ttl`.  (Capacity at least 1 so that the
fresh entry is not itself evicted.) -/
theorem C8_set_expiry {α : Type} (st : CacheState α) (now : Nat)
    (key : String) (data : α) (hm : 1 ≤ st.max_size) :
    (∀ t, t ≠ 0 →
      (CacheManager.set now key data (some t) st).cache.lookup key
        = some ⟨data, now + t, now, key⟩) ∧
    ((CacheManager.set now key data none st).cache.lookup key
        = some ⟨data, now + st.default_ttl, now, key⟩) ∧
    ((CacheManager.set now key data (some 0) st).cache.lookup key
        = some ⟨data, now + st.default_ttl, now, key⟩) := by
  refine ⟨?_, ?_, ?_⟩
  · intro t ht
    have he : CacheManager.effectiveTtl st (some t) = t := by
      simp [CacheManager.effectiveTtl, ht]
    show (enforceMaxSize st.max_size (eraseKey key st.cache
        ++ [(key, ⟨data, now + CacheManager.effectiveTtl st (some t), now, key⟩)])).lookup
        key = _
    rw [he]
    exact lookup_enforce_append hm st.cache key _
  · show (enforceMaxSize st.max_size (eraseKey key st.cache
        ++ [(key, ⟨data, now + CacheManager.effectiveTtl st none, now, key⟩)])).lookup
        key = _
    exact lookup_enforce_append hm st.cache key _
  · have he : CacheManager.effectiveTtl st (some 0) = st.default_ttl := by
      simp [CacheManager.effectiveTtl]
    show (enforceMaxSize st.max_size (eraseKey key st.cache
        ++ [(key, ⟨data, now + CacheManager.effectiveTtl st (some 0), now, key⟩)])).lookup
        key = _
    rw [he]
    exact lookup_enforce_append hm st.cache key _

/-- C8 witness: a nonzero explicit TTL, an omitted TTL, and the falsy
`ttl = 0`, on a concrete cache with `default_ttl = 300`. -/
theorem C8_set_expiry_witness :
    (CacheManager.set 1000 "k" (7 : Nat) (some 60)
        (initCache Nat 10 300)).cache.lookup "k"
      = some ⟨7, 1060, 1000, "k"⟩ ∧
    (CacheManager.set 1000 "k" (7 : Nat) none
        (initCache Nat 10 300)).cache.lookup "k"
      = some ⟨7, 1300, 1000, "k"⟩ ∧
    (CacheManager.set 1000 "k" (7 : Nat) (some 0)
        (initCache Nat 10 300)).cache.lookup "k"
      = some ⟨7, 1300, 1000, "k"⟩ := by
  have h := C8_set_expiry (initCache Nat 10 300) 1000 "k" 7 (by decide)
  exact ⟨h.1 60 (by decide), h.2.1, h.2.2⟩

/-- C9: `cleanup_expired` removes exactly the entries with
`expires_at ≤ now`, returns how many it removed, and leaves the surviving
entries — their contents and their relative recency order — as the filter
of the original order; the counters and configuration are untouched.
(Stated under the no-duplicate-keys invariant that every reachable
dictionary state satisfies.) -/
theorem C9_cleanup_expired {α : Type} (now : Nat) (st : CacheState α)
    (h : (st.cache.map Prod.fst).Nodup) :
    (CacheManager.cleanup_expired now st).1
      = st.cache.countP (fun p => decide (p.2.expires_at ≤ now)) ∧
    (CacheManager.cleanup_expired now st).2.cache
      = st.cache.filter (fun p => decide (now < p.2.expires_at)) ∧
    (CacheManager.cleanup_expired now st).2.hit_count = st.hit_count ∧
    (CacheManager.cleanup_expired now st).2.miss_count = st.miss_count ∧
    (CacheManager.cleanup_expired now st).2.max_size = st.max_size := by
  refine ⟨?_, ?_, rfl, rfl, rfl⟩
  · show ((st.cache.filter fun p => decide (now ≥ p.2.expires_at)).map
        Prod.fst).length = _
    rw [List.length_map, List.countP_eq_length_filter]
  · show ((st.cache.filter fun p => decide (now ≥ p.2.expires_at)).map
        Prod.fst).foldl (fun c k => eraseKey k c) st.cache = _
    rw [foldl_eraseKey_eq_filter]
    refine List.filter_congr (fun p hp => ?_)
    have hmem : ((st.cache.filter fun q =>
          decide (now ≥ q.2.expires_at)).map Prod.fst).contains p.1 = true
        ↔ now ≥ p.2.expires_at := by
      constructor
      · intro hc
        rcases List.contains_iff_exists_mem_beq.mp hc with ⟨a, ha, hbeq⟩
        rcases List.mem_map.mp ha with ⟨q, hq, rfl⟩
        rcases List.mem_filter.mp hq with ⟨hql, hqexp⟩
        have hq_eq : q = p :=
          List.inj_on_of_nodup_map h hql hp (beq_iff_eq.mp hbeq).symm
        subst hq_eq
        exact of_decide_eq_true hqexp
      · intro hge
        apply List.contains_iff_exists_mem_beq.mpr
        exact ⟨p.1, List.mem_map.mpr
          ⟨p, List.mem_filter.mpr ⟨hp, decide_eq_true hge⟩, rfl⟩,
          beq_self_eq_true p.1⟩
    by_cases hexp : now ≥ p.2.expires_at
    · rw [hmem.mpr hexp, decide_eq_false (by omega)]
      rfl
    · have h1 : ((st.cache.filter fun q =>
          decide (now ≥ q.2.expires_at)).map Prod.fst).contains p.1
          = false := by
        cases hc : ((st.cache.filter fun q =>
            decide (now ≥ q.2.expires_at)).map Prod.fst).contains p.1 with
        | false => rfl
        | true => exact absurd (hmem.mp hc) hexp
      rw [h1, decide_eq_true (by omega)]
      rfl

/-- C9 witness: a concrete cache at time 20 whose entries expire at 10, 100
and 20: the two entries with `expires_at ≤ 20` go, the survivor keeps its
place, and the counters are unchanged. -/
theorem C9_cleanup_expired_witness :
    (CacheManager.cleanup_expired 20
      (⟨[("a", ⟨1, 10, 0, "a"⟩), ("b", ⟨2, 100, 0, "b"⟩),
          ("c", ⟨3, 20, 0, "c"⟩)], 5, 300, 2, 3⟩ : CacheState Nat)).1 = 2 ∧
    (CacheManager.cleanup_expired 20
      (⟨[("a", ⟨1, 10, 0, "a"⟩), ("b", ⟨2, 100, 0, "b"⟩),
          ("c", ⟨3, 20, 0, "c"⟩)], 5, 300, 2, 3⟩ : CacheState Nat)).2.cache
      = [("b", ⟨2, 100, 0, "b"⟩)] ∧
    (CacheManager.cleanup_expired 20
      (⟨[("a", ⟨1, 10, 0, "a"⟩), ("b", ⟨2, 100, 0, "b"⟩),
          ("c", ⟨3, 20, 0, "c"⟩)], 5, 300, 2, 3⟩ : CacheState Nat)).2.hit_count
      = 2 := by
  have h := C9_cleanup_expired 20
    (⟨[("a", ⟨1, 10, 0, "a"⟩), ("b", ⟨2, 100, 0, "b"⟩),
        ("c", ⟨3, 20, 0, "c"⟩)], 5, 300, 2, 3⟩ : CacheState Nat)
    (by decide)
  refine ⟨?_, ?_, h.2.2.1⟩
  · rw [h.1]
    decide
  · rw [h.2.1]
    decide

/-- C10 counterexample: the example pairs given in the claim do NOT collide —
their joined strings are `"1.2.3.4_Mozilla_"` and `"1.2.3.4_Mozilla"`, which
differ by a trailing separator and have different MD5 digests. -/
theorem C10_counterexample :
    SessionManager.session_id "1.2.3.4_Mozilla" ""
      ≠ SessionManager.session_id "1.2.3.4" "Mozilla" := by decide

/-- C10 (amended): there exist distinct input pairs that do not share both
the address and the user-agent string yet resolve to the same session id,
because the two inputs are joined with the single separator `'_'` before
hashing — for example `("a_b", "c")` and `("a", "b_c")` both join to
`"a_b_c"` and produce identical ids. -/
theorem C10_separator_collision :
    SessionManager.session_id "a_b" "c" = SessionManager.session_id "a" "b_c" ∧
    ("a_b", "c") ≠ (("a", "b_c") : String × String) := by decide

end FetchVid
